import Mathlib

/-!
Shallow embedding of `carbon_footprint_app/functions.py` (Monthly Carbon
Footprint Tracker and Financial Planner).

Conventions used throughout:
* Python floats are modelled by exact rationals (`ℚ`); every numeric literal
  in the source (0.40, 0.17, 8.0, 1500, ...) is an exact decimal, so the
  formulas of the spec are stated and settled over `ℚ`.
* A `datetime.date` is modelled by its day number in the proleptic Gregorian
  calendar (an integer); `timedelta(days=1)` is `+ 1`, and date subtraction
  `.days` is integer subtraction.  `dayNumber`/`date` below implement the
  standard civil-calendar day-number conversion so that concrete dates such
  as 2024-01-05 denote concrete integers.
* The persisted JSON store (`streak_data.json`) is modelled by
  `StoreContent`: the file may be missing, may hold text that is not JSON,
  or may hold a parsed JSON value.  The JSON value grammar is restricted to
  the shapes relevant to this store (strings, arrays, objects).
* A raised Python exception is modelled by `Except.error` carrying the
  exception's name.
-/

/-- Day number of the civil (proleptic Gregorian) date `y-m-d`, the standard
days-from-civil computation; consecutive calendar days map to consecutive
numbers.  Used to model `datetime.strptime(d, "%Y-%m-%d").date()`. -/
def dayNumber (y m d : ℕ) : ℕ :=
  let yAdj := if m ≤ 2 then y - 1 else y
  let era := yAdj / 400
  let yoe := yAdj % 400
  let mp := if 2 < m then m - 3 else m + 9
  let doy := (153 * mp + 2) / 5 + (d - 1)
  let doe := yoe * 365 + yoe / 4 - yoe / 100 + doy
  era * 146097 + doe

/-- The date `y-m-d` as an integer day number. -/
def date (y m d : ℕ) : ℤ := (dayNumber y m d : ℤ)

/-! ## Footprint calculator (`functions.py` lines 42-79) -/

/-- `calculate_energy_footprint`: `kwh_per_month * EMISSION_FACTORS['electricity_kwh_co2']`. -/
def calculate_energy_footprint (kwh_per_month : ℚ) : ℚ :=
  kwh_per_month * 0.40

/-- `calculate_travel_footprint`: car CO2 plus annual flight CO2 divided by 12. -/
def calculate_travel_footprint (car_km_month flight_km_year : ℚ) : ℚ :=
  car_km_month * 0.17 + (flight_km_year * 0.15) / 12

/-- `calculate_diet_footprint(diet_type, meals_per_month=90)`: a per-meal
factor chosen by an if/elif chain on the diet string (note the source spells
the meat-eating category `omniverous`), multiplied by the meal count.  The
Python default argument `meals_per_month=90` is passed explicitly here. -/
def calculate_diet_footprint (diet_type : String) (meals_per_month : ℚ) : ℚ :=
  let factor : ℚ :=
    if diet_type = "vegan" then 0.5
    else if diet_type = "vegetarian" then 1.2
    else if diet_type = "omniverous" then 2.5
    else 2.0
  meals_per_month * factor

/-- Result record of `calculate_total_footprint` (the Python dict with keys
Total/Energy/Travel/Diet/Waste). -/
structure FootprintBreakdown where
  Total : ℚ
  Energy : ℚ
  Travel : ℚ
  Diet : ℚ
  Waste : ℚ
  deriving Repr, DecidableEq

/-- `calculate_total_footprint(energy, travel, diet, waste_reduction_factor)`:
waste is the flat 10 kg baseline times the reduction factor; total is the sum
of the four components. -/
def calculate_total_footprint (energy travel diet waste_reduction_factor : ℚ) :
    FootprintBreakdown :=
  let waste_co2 := 10 * waste_reduction_factor
  { Total := energy + travel + diet + waste_co2
    Energy := energy
    Travel := travel
    Diet := diet
    Waste := waste_co2 }

/-- Result record of `calculate_financial_savings` (the Python dict with keys
TotalSavings/EnergySavings/TravelSavings/DietSavings). -/
structure SavingsBreakdown where
  TotalSavings : ℚ
  EnergySavings : ℚ
  TravelSavings : ℚ
  DietSavings : ℚ
  deriving Repr, DecidableEq

/-- `calculate_financial_savings(kwh, car_km, diet_type)`: energy and travel
savings are the user's cost minus the benchmark cost (benchmark 100 kWh and
100 km, both at 8.0 per unit), clamped at 0 by `max`; diet saving is a fixed
lookup (vegetarian 1500, vegan 2500, otherwise 0); total is their sum. -/
def calculate_financial_savings (kwh car_km : ℚ) (diet_type : String) :
    SavingsBreakdown :=
  let user_energy_cost := kwh * 8.0
  let benchmark_energy_cost := (100 : ℚ) * 8.0
  let energy_saving := max 0 (user_energy_cost - benchmark_energy_cost)
  let user_travel_cost := car_km * 8.0
  let benchmark_travel_cost := (100 : ℚ) * 8.0
  let travel_saving := max 0 (user_travel_cost - benchmark_travel_cost)
  let diet_saving : ℚ :=
    if diet_type = "vegetarian" then 1500
    else if diet_type = "vegan" then 2500
    else 0
  { TotalSavings := energy_saving + travel_saving + diet_saving
    EnergySavings := energy_saving
    TravelSavings := travel_saving
    DietSavings := diet_saving }

/-! ## Persisted streak store (`functions.py` lines 119-139) -/

/-- JSON values as far as the streak store is concerned: the store only ever
holds strings, arrays and objects (the app writes
`{"logged_dates": [<date strings>]}`), so the grammar is restricted to those
three shapes. -/
inductive JValue where
  | jStr : String → JValue
  | jArr : List JValue → JValue
  | jObj : List (String × JValue) → JValue

/-- State of the persisted store file `streak_data.json`: absent, present but
not parseable as JSON (`json.load` raises `JSONDecodeError`), or present with
a parsed JSON value. -/
inductive StoreContent where
  | missing : StoreContent
  | unparseable : StoreContent
  | parsed : JValue → StoreContent

/-- `sorted(list(set(l)))`: deduplicate, then sort ascending. -/
def sortDedup {α : Type} [LinearOrder α] [DecidableEq α] (l : List α) : List α :=
  List.insertionSort (· ≤ ·) l.dedup

/-- Python `set(x)` followed by `sorted(...)` succeeds on a list exactly when
every element is a string (a nested array or object is unhashable, raising
`TypeError`); this extracts the strings when so. -/
def allStrings : List JValue → Option (List String)
  | [] => some []
  | .jStr s :: rest => (allStrings rest).map (fun l => s :: l)
  | .jArr _ :: _ => none
  | .jObj _ :: _ => none

/-- Evaluation of `sorted(list(set(x)))` on the Python value `x` found under
the `logged_dates` key: a list of strings dedups and sorts; iterating a
string yields its characters; iterating a dict yields its keys; a list with
a nested list or dict raises `TypeError` (unhashable element). -/
def pySortedSet : JValue → Except String (List String)
  | .jStr s => .ok (sortDedup (s.toList.map String.singleton))
  | .jArr xs =>
    match allStrings xs with
    | some strs => .ok (sortDedup strs)
    | none => .error "TypeError"
  | .jObj fields => .ok (sortDedup (fields.map (fun f => f.1)))

/-- `load_streak_dates()`: a missing file yields `[]`; unparseable content
raises `json.JSONDecodeError`, which the function catches and turns into
`[]`; a parsed JSON object yields `sorted(list(set(data.get('logged_dates', []))))`
(`dict.get` with a default, so a missing key yields `[]`, and a duplicate key
in the JSON text resolves to the last occurrence, hence the reversed lookup);
parsed JSON that is not an object makes `data.get` raise `AttributeError`,
which the `except (json.JSONDecodeError, KeyError)` clause does not catch. -/
def load_streak_dates : StoreContent → Except String (List String)
  | .missing => .ok []
  | .unparseable => .ok []
  | .parsed (.jObj fields) =>
    pySortedSet ((fields.reverse.lookup "logged_dates").getD (.jArr []))
  | .parsed (.jStr _) => .error "AttributeError"
  | .parsed (.jArr _) => .error "AttributeError"

/-- `save_new_log(date_str)`: load the current dates; if the date is absent,
append it and re-sort; write `{"logged_dates": dates}` back.  If the load
raises, the exception propagates and the file is never written. -/
def save_new_log (date_str : String) (store : StoreContent) :
    Except String StoreContent :=
  match load_streak_dates store with
  | .error e => .error e
  | .ok dates =>
    let dates2 :=
      if date_str ∈ dates then dates
      else List.insertionSort (· ≤ ·) (dates ++ [date_str])
    .ok (.parsed (.jObj [("logged_dates", .jArr (dates2.map JValue.jStr))]))

/-- The store state after a `save_new_log(date_str)` call: the written state
on success, the unchanged old state when the call raised (the file write is
never reached). -/
def applyLog (date_str : String) (store : StoreContent) : StoreContent :=
  match save_new_log date_str store with
  | .ok s => s
  | .error _ => store

/-! ## Streak computation (`functions.py` lines 141-190) -/

/-- The `for` loop body of `calculate_longest_streak`: scan the sorted unique
dates left to right; a gap of exactly one day extends the running length,
any other gap flushes it into the running maximum and restarts at 1; the
final `max` flushes a run still open at the end of the scan. -/
def streakScan : ℤ → List ℤ → ℕ → ℕ → ℕ
  | _, [], longest, current => max longest current
  | prev, b :: rest, longest, current =>
    if b - prev = 1 then streakScan b rest longest (current + 1)
    else streakScan b rest (max longest current) 1

/-- `calculate_longest_streak(dates_str)`: 0 on an empty input, otherwise the
scan over `sorted(list(set(dates)))` starting with `longest_streak = 0` and
`current_length = 1`.  Dates are day numbers (see the header comment). -/
def calculate_longest_streak (dates : List ℤ) : ℕ :=
  if dates = [] then 0
  else
    match sortDedup dates with
    | [] => 0
    | a :: rest => streakScan a rest 0 1

/-- Fuel-bounded unfolding of the `while check_date in all_dates` loop of
`calculate_current_streak`: count how many consecutive days, walking
backwards from `d`, are in `s`; each iteration consumes one unit of fuel. -/
def countBackFuel (s : Finset ℤ) : ℤ → ℕ → ℕ
  | _, 0 => 0
  | d, fuel + 1 => if d ∈ s then countBackFuel s (d - 1) fuel + 1 else 0

/-- The value of the backward-counting `while` loop started at `d`: a run of
consecutive members of `s` has at most `s.card` days, so fuel `s.card + 1`
never runs out (proved below), and this equals the loop's exact result. -/
def backRun (s : Finset ℤ) (d : ℤ) : ℕ :=
  countBackFuel s d (s.card + 1)

/-- `calculate_current_streak()`, parameterised by the ambient state the
Python function reads: `today` (`datetime.now().date()`) and the loaded list
of logged dates (`load_streak_dates()` parsed to day numbers).  Empty history
returns `(0, 0)`; otherwise the backward count starts at `today` if logged,
else at `yesterday` if logged, else the current streak is 0; the longest
streak is computed alongside in all three branches. -/
def calculate_current_streak (today : ℤ) (logged : List ℤ) : ℕ × ℕ :=
  if logged = [] then (0, 0)
  else if today ∈ logged.toFinset then
    (backRun logged.toFinset today, calculate_longest_streak logged)
  else if today - 1 ∈ logged.toFinset then
    (backRun logged.toFinset (today - 1), calculate_longest_streak logged)
  else
    (0, calculate_longest_streak logged)

/-! ## Specification-side notions used to state the claims -/

/-- `runIn s d n`: the `n` consecutive days ending at `d` (that is,
`d, d-1, ..., d-n+1`) all belong to `s`.  This is the spec's notion of a run
of calendar-consecutive dates of length `n` ending at `d`. -/
def runIn (s : Finset ℤ) (d : ℤ) (n : ℕ) : Prop :=
  ∀ k : ℕ, k < n → d - (k : ℤ) ∈ s

/-- The length of the longest run of consecutive dates inside `s`: the
largest backward run ending at any member of `s`. -/
def maxRun (s : Finset ℤ) : ℕ :=
  s.sup (backRun s)

/-- Maximum of `backRun s` over a list, used to bridge the left-to-right scan
with `maxRun`. -/
def listBackMax (s : Finset ℤ) : List ℤ → ℕ
  | [] => 0
  | x :: xs => max (backRun s x) (listBackMax s xs)

instance runInDecidable (s : Finset ℤ) (d : ℤ) (n : ℕ) : Decidable (runIn s d n) :=
  Nat.decidableBallLT n (fun k _ => d - (k : ℤ) ∈ s)

/-! ## Properties of the backward count (the `while` loop) -/

theorem countBackFuel_mem (s : Finset ℤ) :
    ∀ (fuel : ℕ) (d : ℤ) (k : ℕ), k < countBackFuel s d fuel → d - (k : ℤ) ∈ s := by
  intro fuel
  induction fuel with
  | zero => intro d k hk; simp [countBackFuel] at hk
  | succ f ih =>
    intro d k hk
    simp only [countBackFuel] at hk
    by_cases hd : d ∈ s
    · rw [if_pos hd] at hk
      cases k with
      | zero => simpa using hd
      | succ j =>
        have hj : j < countBackFuel s (d - 1) f := by omega
        have hmem := ih (d - 1) j hj
        have he : d - ((j : ℤ) + 1) = d - 1 - (j : ℤ) := by ring
        push_cast
        rw [he]
        exact hmem
    · rw [if_neg hd] at hk
      omega

theorem countBackFuel_le_card (s : Finset ℤ) (d : ℤ) (fuel : ℕ) :
    countBackFuel s d fuel ≤ s.card := by
  have hmem : ∀ k ∈ Finset.range (countBackFuel s d fuel), d - (k : ℤ) ∈ s :=
    fun k hk => countBackFuel_mem s fuel d k (Finset.mem_range.mp hk)
  have hinj : Set.InjOn (fun k : ℕ => d - (k : ℤ)) (Finset.range (countBackFuel s d fuel)) := by
    intro a _ b _ hab
    simp only at hab
    omega
  calc countBackFuel s d fuel
      = (Finset.range (countBackFuel s d fuel)).card := (Finset.card_range _).symm
    _ ≤ s.card := Finset.card_le_card_of_injOn _ hmem hinj

theorem countBackFuel_notMem (s : Finset ℤ) :
    ∀ (fuel : ℕ) (d : ℤ), countBackFuel s d fuel < fuel →
      d - (countBackFuel s d fuel : ℤ) ∉ s := by
  intro fuel
  induction fuel with
  | zero => intro d h; omega
  | succ f ih =>
    intro d h
    by_cases hd : d ∈ s
    · simp only [countBackFuel, if_pos hd] at h ⊢
      have h2 : countBackFuel s (d - 1) f < f := by omega
      have hnot := ih (d - 1) h2
      push_cast
      have he : d - ((countBackFuel s (d - 1) f : ℤ) + 1) =
          d - 1 - (countBackFuel s (d - 1) f : ℤ) := by ring
      rw [he]
      exact hnot
    · simp only [countBackFuel, if_neg hd]
      simpa using hd

theorem backRun_mem (s : Finset ℤ) (d : ℤ) {k : ℕ} (hk : k < backRun s d) :
    d - (k : ℤ) ∈ s :=
  countBackFuel_mem s _ d k hk

theorem backRun_le_card (s : Finset ℤ) (d : ℤ) : backRun s d ≤ s.card :=
  countBackFuel_le_card s d _

theorem backRun_notMem (s : Finset ℤ) (d : ℤ) : d - (backRun s d : ℤ) ∉ s := by
  apply countBackFuel_notMem s (s.card + 1) d
  have := countBackFuel_le_card s d (s.card + 1)
  omega

theorem backRun_unique (s : Finset ℤ) (d : ℤ) (n : ℕ)
    (h1 : ∀ k : ℕ, k < n → d - (k : ℤ) ∈ s) (h2 : d - (n : ℤ) ∉ s) :
    backRun s d = n := by
  rcases lt_trichotomy (backRun s d) n with h | h | h
  · exact absurd (h1 _ h) (backRun_notMem s d)
  · exact h
  · exact absurd (backRun_mem s d h) h2

theorem backRun_succ (s : Finset ℤ) (d : ℤ) (h : d + 1 ∈ s) :
    backRun s (d + 1) = backRun s d + 1 := by
  apply backRun_unique
  · intro k hk
    cases k with
    | zero => simpa using h
    | succ j =>
      have hj : j < backRun s d := by omega
      have hmem := backRun_mem s d hj
      have he : d + 1 - ((j : ℤ) + 1) = d - (j : ℤ) := by ring
      push_cast
      rw [he]
      exact hmem
  · push_cast
    have he : d + 1 - ((backRun s d : ℤ) + 1) = d - (backRun s d : ℤ) := by ring
    rw [he]
    exact backRun_notMem s d

theorem backRun_eq_one (s : Finset ℤ) (d : ℤ) (h : d ∈ s) (h2 : d - 1 ∉ s) :
    backRun s d = 1 := by
  apply backRun_unique
  · intro k hk
    have hk0 : k = 0 := by omega
    subst hk0
    simpa using h
  · simpa using h2

/-! ## Properties of `listBackMax` and `maxRun` -/

theorem le_listBackMax (s : Finset ℤ) (x : ℤ) :
    ∀ u : List ℤ, x ∈ u → backRun s x ≤ listBackMax s u := by
  intro u
  induction u with
  | nil => intro h; simp at h
  | cons a t ih =>
    intro h
    rw [List.mem_cons] at h
    rcases h with rfl | h
    · simp [listBackMax]
    · exact le_trans (ih h) (by simp [listBackMax])

theorem listBackMax_le (s : Finset ℤ) :
    ∀ u : List ℤ, (∀ x ∈ u, x ∈ s) → listBackMax s u ≤ maxRun s := by
  intro u
  induction u with
  | nil => intro _; simp [listBackMax]
  | cons a t ih =>
    intro h
    rw [listBackMax]
    apply max_le
    · exact Finset.le_sup (h a (by simp))
    · exact ih (fun x hx => h x (List.mem_cons_of_mem _ hx))

theorem listBackMax_eq_maxRun (s : Finset ℤ) (u : List ℤ) (h : ∀ x, x ∈ u ↔ x ∈ s) :
    listBackMax s u = maxRun s := by
  apply le_antisymm
  · exact listBackMax_le s u (fun x hx => (h x).mp hx)
  · exact Finset.sup_le (fun b hb => le_listBackMax s b u ((h b).mpr hb))

/-! ## The scan of `calculate_longest_streak` computes `maxRun` -/

theorem streakScan_eq (s : Finset ℤ) :
    ∀ (rest : List ℤ) (prev : ℤ) (longest current : ℕ),
      List.Sorted (· < ·) (prev :: rest) →
      (∀ x ∈ prev :: rest, x ∈ s) →
      (∀ y ∈ s, y ≤ prev ∨ y ∈ rest) →
      current = backRun s prev →
      streakScan prev rest longest current =
        max longest (listBackMax s (prev :: rest)) := by
  intro rest
  induction rest with
  | nil =>
    intro prev longest current _ _ _ hcur
    subst hcur
    simp [streakScan, listBackMax]
  | cons b r ih =>
    intro prev longest current hsort hmem hgap hcur
    have hpb : prev < b := (List.sorted_cons.mp hsort).1 b (by simp)
    have hsort2 : List.Sorted (· < ·) (b :: r) := (List.sorted_cons.mp hsort).2
    have hmem2 : ∀ x ∈ b :: r, x ∈ s := fun x hx => hmem x (List.mem_cons_of_mem _ hx)
    have hbs : b ∈ s := hmem2 b (by simp)
    have hgap2 : ∀ y ∈ s, y ≤ b ∨ y ∈ r := by
      intro y hy
      rcases hgap y hy with h | h
      · exact Or.inl (le_trans h (le_of_lt hpb))
      · rw [List.mem_cons] at h
        rcases h with rfl | h
        · exact Or.inl le_rfl
        · exact Or.inr h
    by_cases hd : b - prev = 1
    · have hb : b = prev + 1 := by omega
      have hsucc : backRun s b = backRun s prev + 1 := by
        rw [hb]
        exact backRun_succ s prev (hb ▸ hbs)
      rw [streakScan, if_pos hd]
      rw [ih b longest (current + 1) hsort2 hmem2 hgap2 (by omega)]
      have hle : backRun s prev ≤ listBackMax s (b :: r) := by
        have h1 : backRun s prev ≤ backRun s b := by omega
        exact le_trans h1 (le_listBackMax s b (b :: r) (by simp))
      have hrhs : listBackMax s (prev :: b :: r) =
          max (backRun s prev) (listBackMax s (b :: r)) := rfl
      rw [hrhs, max_eq_right hle]
    · have hb1 : b - 1 ∉ s := by
        intro hmem3
        rcases hgap (b - 1) hmem3 with h | h
        · omega
        · rw [List.mem_cons] at h
          rcases h with heq | h
          · omega
          · have := (List.sorted_cons.mp hsort2).1 _ h
            omega
      have hone : backRun s b = 1 := backRun_eq_one s b hbs hb1
      rw [streakScan, if_neg hd]
      rw [ih b (max longest current) 1 hsort2 hmem2 hgap2 (by omega)]
      have hrhs : listBackMax s (prev :: b :: r) =
          max (backRun s prev) (listBackMax s (b :: r)) := rfl
      rw [hrhs, ← hcur, max_assoc]

/-! ## `sortDedup` lemmas -/

theorem sortDedup_sorted {α : Type} [LinearOrder α] [DecidableEq α] (l : List α) :
    List.Sorted (· ≤ ·) (sortDedup l) :=
  List.sorted_insertionSort _ _

theorem sortDedup_nodup {α : Type} [LinearOrder α] [DecidableEq α] (l : List α) :
    (sortDedup l).Nodup :=
  ((List.perm_insertionSort _ _).nodup_iff).mpr l.nodup_dedup

theorem mem_sortDedup {α : Type} [LinearOrder α] [DecidableEq α] {x : α} {l : List α} :
    x ∈ sortDedup l ↔ x ∈ l := by
  rw [sortDedup, List.mem_insertionSort, List.mem_dedup]

theorem sortDedup_eq_self {α : Type} [LinearOrder α] [DecidableEq α] {l : List α}
    (h1 : List.Sorted (· ≤ ·) l) (h2 : l.Nodup) : sortDedup l = l := by
  rw [sortDedup, List.dedup_eq_self.mpr h2, h1.insertionSort_eq]

theorem sortDedup_sorted_lt (l : List ℤ) : List.Sorted (· < ·) (sortDedup l) :=
  (sortDedup_sorted l).lt_of_le (sortDedup_nodup l)

/-! ## `calculate_longest_streak` equals the longest run -/

theorem calculate_longest_streak_eq (l : List ℤ) :
    calculate_longest_streak l = maxRun l.toFinset := by
  rw [calculate_longest_streak]
  by_cases hl : l = []
  · rw [if_pos hl]
    subst hl
    simp [maxRun]
  · rw [if_neg hl]
    rcases hu : sortDedup l with _ | ⟨a, rest⟩
    · exfalso
      rcases List.exists_mem_of_ne_nil l hl with ⟨x, hx⟩
      have hx2 : x ∈ sortDedup l := mem_sortDedup.mpr hx
      rw [hu] at hx2
      simp at hx2
    · have husort : List.Sorted (· < ·) (a :: rest) := hu ▸ sortDedup_sorted_lt l
      have humem : ∀ x, x ∈ a :: rest ↔ x ∈ l := by
        intro x
        rw [← hu, mem_sortDedup]
      have hmem : ∀ x ∈ a :: rest, x ∈ l.toFinset := by
        intro x hx
        rw [List.mem_toFinset]
        exact (humem x).mp hx
      have hgap : ∀ y ∈ l.toFinset, y ≤ a ∨ y ∈ rest := by
        intro y hy
        rw [List.mem_toFinset] at hy
        rcases List.mem_cons.mp ((humem y).mpr hy) with rfl | h
        · exact Or.inl le_rfl
        · exact Or.inr h
      have has : a ∈ l.toFinset := hmem a (by simp)
      have ha1 : a - 1 ∉ l.toFinset := by
        intro hmem3
        rw [List.mem_toFinset] at hmem3
        rcases List.mem_cons.mp ((humem (a - 1)).mpr hmem3) with heq | hin
        · omega
        · have := (List.sorted_cons.mp husort).1 _ hin
          omega
      have hcur : (1 : ℕ) = backRun l.toFinset a :=
        (backRun_eq_one l.toFinset a has ha1).symm
      show streakScan a rest 0 1 = maxRun l.toFinset
      rw [streakScan_eq l.toFinset rest a 0 1 husort hmem hgap hcur]
      rw [listBackMax_eq_maxRun l.toFinset (a :: rest)
        (fun x => (humem x).trans List.mem_toFinset.symm)]
      omega

/-! ## Runs of consecutive dates -/

theorem runIn_backRun (s : Finset ℤ) (d : ℤ) : runIn s d (backRun s d) :=
  fun _ hk => backRun_mem s d hk

theorem runIn_le_backRun (s : Finset ℤ) (d : ℤ) (n : ℕ) (h : runIn s d n) :
    n ≤ backRun s d := by
  by_contra hlt
  push_neg at hlt
  exact backRun_notMem s d (h _ hlt)

theorem runIn_le_maxRun (s : Finset ℤ) (d : ℤ) (n : ℕ) (h : runIn s d n) :
    n ≤ maxRun s := by
  cases n with
  | zero => exact Nat.zero_le _
  | succ m =>
    have hd : d ∈ s := by simpa using h 0 (Nat.succ_pos m)
    exact le_trans (runIn_le_backRun s d _ h) (Finset.le_sup hd)

theorem maxRun_attained (s : Finset ℤ) : ∃ d, runIn s d (maxRun s) := by
  rcases s.eq_empty_or_nonempty with rfl | hne
  · refine ⟨0, ?_⟩
    intro k hk
    rw [maxRun, Finset.sup_empty] at hk
    exact absurd hk (Nat.not_lt_zero k)
  · rcases Finset.exists_mem_eq_sup s hne (backRun s) with ⟨b, _, heq⟩
    refine ⟨b, ?_⟩
    rw [maxRun, heq]
    exact runIn_backRun s b

/-- Claim C2: `calculate_longest_streak` returns the length of the longest run
of calendar-consecutive dates in the input set: no run in the set is longer
than the returned value, and a run of exactly the returned length exists; the
empty input yields 0, and the set {2024-01-01, 2024-01-02, 2024-01-03,
2024-01-10} yields 3. -/
theorem longest_streak_spec :
    (∀ (l : List ℤ) (d : ℤ) (n : ℕ), runIn l.toFinset d n →
      n ≤ calculate_longest_streak l)
    ∧ (∀ l : List ℤ, ∃ d : ℤ, runIn l.toFinset d (calculate_longest_streak l))
    ∧ calculate_longest_streak [] = 0
    ∧ calculate_longest_streak
        [date 2024 1 1, date 2024 1 2, date 2024 1 3, date 2024 1 10] = 3 := by
  refine ⟨?_, ?_, by decide, by decide⟩
  · intro l d n h
    rw [calculate_longest_streak_eq]
    exact runIn_le_maxRun _ d n h
  · intro l
    rw [calculate_longest_streak_eq]
    exact maxRun_attained _

/-- Witness for C2 at a concrete input: the three consecutive dates
2024-01-01..03 form a run of length 3 inside the example set, so the claimed
upper-bound part applies and yields `3 ≤ calculate_longest_streak ...`. -/
theorem longest_streak_spec_witness :
    runIn ([date 2024 1 1, date 2024 1 2, date 2024 1 3,
        date 2024 1 10] : List ℤ).toFinset (date 2024 1 3) 3
    ∧ 3 ≤ calculate_longest_streak
        [date 2024 1 1, date 2024 1 2, date 2024 1 3, date 2024 1 10] :=
  ⟨by decide, longest_streak_spec.1 _ (date 2024 1 3) 3 (by decide)⟩

/-- Claim C1: branch-by-branch characterisation of `calculate_current_streak`.
If today is logged, the first component is the exact number of consecutive
logged days counting backward from today (all present, stopped at the first
missing day); if only yesterday is logged, the same counting starts at
yesterday; if neither is logged the current streak is 0 while the longest
streak is still returned as the second component; and on today = 2024-01-05
with stored set {2024-01-03, 2024-01-04} the result is (2, 2). -/
theorem current_streak_spec :
    (∀ (today : ℤ) (l : List ℤ), today ∈ l.toFinset →
      runIn l.toFinset today (calculate_current_streak today l).1
      ∧ today - ((calculate_current_streak today l).1 : ℤ) ∉ l.toFinset
      ∧ (calculate_current_streak today l).2 = calculate_longest_streak l)
    ∧ (∀ (today : ℤ) (l : List ℤ), today ∉ l.toFinset → today - 1 ∈ l.toFinset →
      runIn l.toFinset (today - 1) (calculate_current_streak today l).1
      ∧ (today - 1) - ((calculate_current_streak today l).1 : ℤ) ∉ l.toFinset
      ∧ (calculate_current_streak today l).2 = calculate_longest_streak l)
    ∧ (∀ (today : ℤ) (l : List ℤ), today ∉ l.toFinset → today - 1 ∉ l.toFinset →
      calculate_current_streak today l = (0, calculate_longest_streak l))
    ∧ calculate_current_streak (date 2024 1 5) [date 2024 1 3, date 2024 1 4]
        = (2, 2) := by
  refine ⟨?_, ?_, ?_, by decide⟩
  · intro today l h
    have hl : l ≠ [] := by
      rintro rfl
      simp at h
    rw [calculate_current_streak, if_neg hl, if_pos h]
    exact ⟨runIn_backRun _ _, backRun_notMem _ _, rfl⟩
  · intro today l h1 h2
    have hl : l ≠ [] := by
      rintro rfl
      simp at h2
    rw [calculate_current_streak, if_neg hl, if_neg h1, if_pos h2]
    exact ⟨runIn_backRun _ _, backRun_notMem _ _, rfl⟩
  · intro today l h1 h2
    by_cases hl : l = []
    · subst hl
      rw [calculate_current_streak, if_pos rfl]
      rfl
    · rw [calculate_current_streak, if_neg hl, if_neg h1, if_neg h2]

/-- Witness for C1 at a concrete input: today = 2024-01-05 is not logged but
yesterday 2024-01-04 is, so the yesterday branch of the characterisation
applies to the stored set {2024-01-03, 2024-01-04}. -/
theorem current_streak_spec_witness :
    (date 2024 1 5 ∉ ([date 2024 1 3, date 2024 1 4] : List ℤ).toFinset
      ∧ date 2024 1 5 - 1 ∈ ([date 2024 1 3, date 2024 1 4] : List ℤ).toFinset)
    ∧ (runIn ([date 2024 1 3, date 2024 1 4] : List ℤ).toFinset (date 2024 1 5 - 1)
        (calculate_current_streak (date 2024 1 5) [date 2024 1 3, date 2024 1 4]).1
      ∧ (date 2024 1 5 - 1) -
          ((calculate_current_streak (date 2024 1 5) [date 2024 1 3, date 2024 1 4]).1 : ℤ)
          ∉ ([date 2024 1 3, date 2024 1 4] : List ℤ).toFinset
      ∧ (calculate_current_streak (date 2024 1 5) [date 2024 1 3, date 2024 1 4]).2
          = calculate_longest_streak [date 2024 1 3, date 2024 1 4]) :=
  ⟨⟨by decide, by decide⟩,
    current_streak_spec.2.1 (date 2024 1 5) [date 2024 1 3, date 2024 1 4]
      (by decide) (by decide)⟩

/-- Claim C10: the current streak never exceeds the longest streak: for every
current date and every list of logged dates, the pair returned by
`calculate_current_streak` satisfies first ≤ second. -/
theorem current_streak_le_longest (today : ℤ) (l : List ℤ) :
    (calculate_current_streak today l).1 ≤ (calculate_current_streak today l).2 := by
  by_cases hl : l = []
  · subst hl
    simp [calculate_current_streak]
  · rw [calculate_current_streak, if_neg hl]
    by_cases h1 : today ∈ l.toFinset
    · rw [if_pos h1]
      show backRun l.toFinset today ≤ calculate_longest_streak l
      rw [calculate_longest_streak_eq]
      exact Finset.le_sup h1
    · rw [if_neg h1]
      by_cases h2 : today - 1 ∈ l.toFinset
      · rw [if_pos h2]
        show backRun l.toFinset (today - 1) ≤ calculate_longest_streak l
        rw [calculate_longest_streak_eq]
        exact Finset.le_sup h2
      · rw [if_neg h2]
        exact Nat.zero_le _

/-! ## Calculator claims -/

/-- Counterexample for claim C3 as stated: the source's if/elif chain tests
the string `omniverous`, so the correctly spelled string `omnivorous` is not
recognised and falls into the default branch: at 90 meals the result is
2.0 * 90 = 180, not the claimed 2.5 * 90 = 225. -/
theorem diet_footprint_omnivorous_cex :
    calculate_diet_footprint "omnivorous" 90 = 2.0 * 90
    ∧ calculate_diet_footprint "omnivorous" 90 ≠ 2.5 * 90 := by
  constructor
  · simp [calculate_diet_footprint]
    norm_num
  · simp [calculate_diet_footprint]
    norm_num

/-- Claim C3 (amended): for every meal count, `calculate_diet_footprint`
returns 0.5·m for "vegan", 1.2·m for "vegetarian", 2.5·m for the source's
category string "omniverous", and 2.0·m for every other string (unrecognized
diets, including the standard spelling "omnivorous", fall back to the other
factor rather than failing). -/
theorem diet_footprint_spec :
    (∀ m : ℚ, calculate_diet_footprint "vegan" m = 0.5 * m)
    ∧ (∀ m : ℚ, calculate_diet_footprint "vegetarian" m = 1.2 * m)
    ∧ (∀ m : ℚ, calculate_diet_footprint "omniverous" m = 2.5 * m)
    ∧ (∀ (s : String) (m : ℚ), s ≠ "vegan" → s ≠ "vegetarian" → s ≠ "omniverous" →
        calculate_diet_footprint s m = 2.0 * m) := by
  refine ⟨fun m => ?_, fun m => ?_, fun m => ?_, fun s m h1 h2 h3 => ?_⟩
  · simp [calculate_diet_footprint]
    ring
  · simp [calculate_diet_footprint]
    ring
  · simp [calculate_diet_footprint]
    ring
  · simp only [calculate_diet_footprint, if_neg h1, if_neg h2, if_neg h3]
    exact mul_comm m 2.0

/-- Witness for the amended C3: the string "omnivorous" differs from all
three recognised category strings, and the fallback branch of the theorem
applies to it at 90 meals. -/
theorem diet_footprint_spec_witness :
    (("omnivorous" : String) ≠ "vegan"
      ∧ ("omnivorous" : String) ≠ "vegetarian"
      ∧ ("omnivorous" : String) ≠ "omniverous")
    ∧ calculate_diet_footprint "omnivorous" 90 = 2.0 * 90 :=
  ⟨⟨by decide, by decide, by decide⟩,
    diet_footprint_spec.2.2.2 "omnivorous" 90 (by decide) (by decide) (by decide)⟩

/-- Claim C5: the savings calculator returns
energy = max(0, kwh·8 − 100·8), travel = max(0, carKm·8 − 100·8),
diet = 1500 for "vegetarian" / 2500 for "vegan" / 0 otherwise,
total = the sum of the three, and no category saving is negative. -/
theorem financial_savings_spec (kwh car_km : ℚ) (diet_type : String) :
    (calculate_financial_savings kwh car_km diet_type).EnergySavings
        = max 0 (kwh * 8.0 - 100 * 8.0)
    ∧ (calculate_financial_savings kwh car_km diet_type).TravelSavings
        = max 0 (car_km * 8.0 - 100 * 8.0)
    ∧ (calculate_financial_savings kwh car_km diet_type).DietSavings
        = (if diet_type = "vegetarian" then 1500
           else if diet_type = "vegan" then 2500 else 0)
    ∧ (calculate_financial_savings kwh car_km diet_type).TotalSavings
        = (calculate_financial_savings kwh car_km diet_type).EnergySavings
          + (calculate_financial_savings kwh car_km diet_type).TravelSavings
          + (calculate_financial_savings kwh car_km diet_type).DietSavings
    ∧ 0 ≤ (calculate_financial_savings kwh car_km diet_type).EnergySavings
    ∧ 0 ≤ (calculate_financial_savings kwh car_km diet_type).TravelSavings
    ∧ 0 ≤ (calculate_financial_savings kwh car_km diet_type).DietSavings := by
  refine ⟨rfl, rfl, rfl, rfl, le_max_left 0 _, le_max_left 0 _, ?_⟩
  show (0 : ℚ) ≤ (if diet_type = "vegetarian" then 1500
      else if diet_type = "vegan" then 2500 else 0)
  split_ifs <;> norm_num

/-- Claim C6: `calculate_total_footprint` returns energy, travel and diet
unchanged, waste = 10·w, and total = energy + travel + diet + 10·w. -/
theorem total_footprint_spec (energy travel diet w : ℚ) :
    (calculate_total_footprint energy travel diet w).Waste = 10 * w
    ∧ (calculate_total_footprint energy travel diet w).Energy = energy
    ∧ (calculate_total_footprint energy travel diet w).Travel = travel
    ∧ (calculate_total_footprint energy travel diet w).Diet = diet
    ∧ (calculate_total_footprint energy travel diet w).Total
        = energy + travel + diet + 10 * w :=
  ⟨rfl, rfl, rfl, rfl, rfl⟩

/-- Claim C8: the recycling factor 0.8 lowers the total by exactly 2.0
(20% of the flat 10 kg waste baseline) compared with factor 1.0. -/
theorem total_footprint_recycle_delta (e t d : ℚ) :
    (calculate_total_footprint e t d 0.8).Total
      = (calculate_total_footprint e t d 1.0).Total - 2.0 := by
  show e + t + d + 10 * 0.8 = e + t + d + 10 * 1.0 - 2.0
  ring

/-- Claim C4: `load_streak_dates` returns the empty list on a missing store
and on store text that is not well-formed JSON — but on a store holding
valid JSON that is not an object (here the JSON text `[]`) the call to
`data.get` raises an uncaught `AttributeError` instead of returning a
sequence, contradicting the never-raises part of the claim. -/
theorem load_streak_dates_robust_or_raises :
    load_streak_dates .missing = .ok []
    ∧ load_streak_dates .unparseable = .ok []
    ∧ load_streak_dates (.parsed (.jArr [])) = .error "AttributeError" :=
  ⟨rfl, rfl, rfl⟩

/-! ## Store round-trip lemmas for `load_streak_dates` / `save_new_log` -/

theorem allStrings_map (l : List String) :
    allStrings (l.map JValue.jStr) = some l := by
  induction l with
  | nil => rfl
  | cons a t ih => simp [allStrings, ih]

theorem load_saved (l : List String) :
    load_streak_dates (.parsed (.jObj [("logged_dates", .jArr (l.map JValue.jStr))]))
      = .ok (sortDedup l) := by
  simp only [load_streak_dates, List.reverse_singleton, List.lookup_cons_self,
    Option.getD_some, pySortedSet, allStrings_map]

theorem load_ok_sorted_nodup (store : StoreContent) (dates : List String)
    (h : load_streak_dates store = .ok dates) :
    List.Sorted (· ≤ ·) dates ∧ dates.Nodup := by
  have hsd : ∀ l : List String, (sortDedup l : List String) = dates →
      List.Sorted (· ≤ ·) dates ∧ dates.Nodup := by
    rintro l rfl
    exact ⟨sortDedup_sorted l, sortDedup_nodup l⟩
  cases store with
  | missing =>
    rw [load_streak_dates] at h
    injection h with h
    subst h
    exact ⟨List.sorted_nil, List.nodup_nil⟩
  | unparseable =>
    rw [load_streak_dates] at h
    injection h with h
    subst h
    exact ⟨List.sorted_nil, List.nodup_nil⟩
  | parsed j =>
    cases j with
    | jStr s => exact absurd h (by rw [load_streak_dates]; exact fun hc => nomatch hc)
    | jArr xs => exact absurd h (by rw [load_streak_dates]; exact fun hc => nomatch hc)
    | jObj fields =>
      rw [load_streak_dates] at h
      rcases hv : (fields.reverse.lookup "logged_dates").getD (.jArr []) with s | xs | fs
      all_goals rw [hv] at h
      · rw [pySortedSet] at h
        injection h with h
        exact hsd _ h
      · rw [pySortedSet] at h
        rcases has : allStrings xs with _ | strs
        all_goals rw [has] at h
        · exact nomatch h
        · injection h with h
          exact hsd _ h
      · rw [pySortedSet] at h
        injection h with h
        exact hsd _ h

theorem load_ok_canonical (store : StoreContent) (dates : List String)
    (h : load_streak_dates store = .ok dates) :
    sortDedup dates = dates := by
  rcases load_ok_sorted_nodup store dates h with ⟨h1, h2⟩
  exact sortDedup_eq_self h1 h2

theorem applyLog_of_error (d : String) (store : StoreContent) (e : String)
    (h : load_streak_dates store = .error e) :
    applyLog d store = store := by
  rw [applyLog, save_new_log, h]

theorem applyLog_of_ok (d : String) (store : StoreContent) (dates : List String)
    (h : load_streak_dates store = .ok dates) :
    applyLog d store = .parsed (.jObj [("logged_dates",
      .jArr ((if d ∈ dates then dates
        else List.insertionSort (· ≤ ·) (dates ++ [d])).map JValue.jStr))]) := by
  rw [applyLog, save_new_log, h]

theorem saved_dates_canonical (d : String) (dates : List String)
    (hs : List.Sorted (· ≤ ·) dates) (hn : dates.Nodup) :
    List.Sorted (· ≤ ·)
        (if d ∈ dates then dates else List.insertionSort (· ≤ ·) (dates ++ [d]))
    ∧ (if d ∈ dates then dates
        else List.insertionSort (· ≤ ·) (dates ++ [d])).Nodup
    ∧ d ∈ (if d ∈ dates then dates
        else List.insertionSort (· ≤ ·) (dates ++ [d])) := by
  by_cases hd : d ∈ dates
  · rw [if_pos hd]
    exact ⟨hs, hn, hd⟩
  · rw [if_neg hd]
    refine ⟨List.sorted_insertionSort _ _, ?_, ?_⟩
    · rw [(List.perm_insertionSort _ _).nodup_iff]
      rw [List.nodup_append]
      exact ⟨hn, List.nodup_singleton d, by simpa using hd⟩
    · rw [List.mem_insertionSort]
      simp

theorem load_applyLog_of_ok (d : String) (store : StoreContent) (dates : List String)
    (h : load_streak_dates store = .ok dates) :
    load_streak_dates (applyLog d store)
      = .ok (if d ∈ dates then dates
          else List.insertionSort (· ≤ ·) (dates ++ [d])) := by
  rcases load_ok_sorted_nodup store dates h with ⟨h1, h2⟩
  rcases saved_dates_canonical d dates h1 h2 with ⟨h3, h4, _⟩
  rw [applyLog_of_ok d store dates h, load_saved, sortDedup_eq_self h3 h4]

/-- Claim C7: `save_new_log` is idempotent — applying it twice with the same
date leaves the persisted store exactly as one application does — and one
application on a loadable store persists the old set with the date inserted,
sorted ascending, with no change to the set when the date was already
present. -/
theorem save_new_log_idempotent :
    (∀ (d : String) (store : StoreContent),
      applyLog d (applyLog d store) = applyLog d store)
    ∧ (∀ (d : String) (store : StoreContent) (dates : List String),
        load_streak_dates store = .ok dates →
        ∃ dates2, load_streak_dates (applyLog d store) = .ok dates2
          ∧ dates2.toFinset = insert d dates.toFinset
          ∧ List.Sorted (· ≤ ·) dates2
          ∧ (d ∈ dates → dates2 = dates)) := by
  constructor
  · intro d store
    cases hload : load_streak_dates store with
    | error e =>
      rw [applyLog_of_error d store e hload]
      exact applyLog_of_error d store e hload
    | ok dates =>
      rcases load_ok_sorted_nodup store dates hload with ⟨h1, h2⟩
      rcases saved_dates_canonical d dates h1 h2 with ⟨_, _, h5⟩
      rw [applyLog_of_ok d (applyLog d store) _ (load_applyLog_of_ok d store dates hload)]
      rw [if_pos h5]
      rw [applyLog_of_ok d store dates hload]
  · intro d store dates h
    rcases load_ok_sorted_nodup store dates h with ⟨h1, h2⟩
    refine ⟨if d ∈ dates then dates else List.insertionSort (· ≤ ·) (dates ++ [d]),
      load_applyLog_of_ok d store dates h, ?_, (saved_dates_canonical d dates h1 h2).1, ?_⟩
    · by_cases hd : d ∈ dates
      · rw [if_pos hd]
        exact (Finset.insert_eq_self.mpr (List.mem_toFinset.mpr hd)).symm
      · rw [if_neg hd]
        rw [List.toFinset_eq_of_perm _ _ (List.perm_insertionSort _ _)]
        rw [List.toFinset_append]
        ext x
        simp [or_comm]
    · intro hd
      rw [if_pos hd]

/-- Witness for C7 at a concrete store: the missing store loads as the empty
list, so the insertion part of the theorem applies to it with the date
2024-01-02. -/
theorem save_new_log_idempotent_witness :
    load_streak_dates .missing = .ok []
    ∧ (∃ dates2, load_streak_dates (applyLog "2024-01-02" .missing) = .ok dates2
        ∧ dates2.toFinset = insert "2024-01-02" ([] : List String).toFinset
        ∧ List.Sorted (· ≤ ·) dates2
        ∧ ("2024-01-02" ∈ ([] : List String) → dates2 = [])) :=
  ⟨rfl, save_new_log_idempotent.2 "2024-01-02" .missing [] rfl⟩

/-- Claim C9: whenever `load_streak_dates` succeeds, the returned sequence is
sorted ascending and free of duplicates — the loader itself applies
`sorted(list(set(...)))` rather than trusting the stored order. -/
theorem load_streak_dates_sorted_nodup (store : StoreContent) (dates : List String)
    (h : load_streak_dates store = .ok dates) :
    List.Sorted (· ≤ ·) dates ∧ dates.Nodup :=
  load_ok_sorted_nodup store dates h

/-- Witness for C9 at a concrete store whose stored list is unsorted and has
a duplicate (`["b", "a", "a"]`): the loader returns the sorted deduplicated
`["a", "b"]`, to which the theorem applies. -/
theorem load_streak_dates_sorted_nodup_witness :
    load_streak_dates (.parsed (.jObj [("logged_dates",
        .jArr [.jStr "b", .jStr "a", .jStr "a"])])) = .ok ["a", "b"]
    ∧ (List.Sorted (· ≤ ·) (["a", "b"] : List String)
        ∧ (["a", "b"] : List String).Nodup) := by
  have h : load_streak_dates (.parsed (.jObj [("logged_dates",
      .jArr [.jStr "b", .jStr "a", .jStr "a"])])) = .ok ["a", "b"] := by
    unfold load_streak_dates pySortedSet
    norm_num [List.lookup, sortDedup, List.dedup, List.pwFilter, allStrings]
    intro hc
    exact absurd hc (by decide)
  exact ⟨h, load_streak_dates_sorted_nodup _ _ h⟩
